import Mathlib

/-!
# Verification of the gym workout-plan core logic

Shallow embedding of the decision logic of `src/gym.py`:
the fallback plan generator `_generate_fallback_plan`, the exercise
deduplication loop in `main`, the local exercise catalog
`get_fallback_exercises` with the fetch wrapper
`fetch_exercises_ninja_api`, and the JSON-extraction pipeline of
`generate_workout_plan`.
-/

/-- An exercise record as produced by the catalog: all fields present
(`name, type, muscle, equipment, difficulty, instructions`). -/
structure ExRecord where
  name : String
  type : String
  muscle : String
  equipment : String
  difficulty : String
  instructions : String
deriving DecidableEq

/-- The user profile collected by the sidebar (`main`, lines 413-420). -/
structure UserProfile where
  goal : String
  experience : String
  days_per_week : Nat
  duration : Nat
  equipment : List String
  focus_areas : List String
deriving DecidableEq

/-- A planned exercise inside a day of the generated plan. -/
structure PlannedExercise where
  name : String
  sets : Nat
  reps : String
  rest : String
  notes : String
deriving DecidableEq

/-- One day of the weekly schedule: a focus string and its exercises. -/
structure DaySchedule where
  focus : String
  exercises : List PlannedExercise
deriving DecidableEq

/-- The workout plan object built by `_generate_fallback_plan`.
`weekly_schedule` is a Python dict with insertion order, modelled as an
ordered association list. -/
structure Plan where
  plan_name : String
  overview : String
  weekly_schedule : List (String × DaySchedule)
  progression_tips : List String
  success_tips : List String
deriving DecidableEq

/-- Python `str.strip()`: remove leading and trailing whitespace. -/
def pyStrip (s : String) : String :=
  String.mk
    (((s.data.dropWhile Char.isWhitespace).reverse.dropWhile
        Char.isWhitespace).reverse)

/-- Python `str.lower()` (ASCII). -/
def pyLower (s : String) : String :=
  String.mk (s.data.map Char.toLower)

/-- Python `s.startswith(pre)`. -/
def pyStartsWith (s pre : String) : Bool :=
  pre.data.isPrefixOf s.data

/-- Replace every non-overlapping occurrence of `pat` (non-empty for all
uses below, scanned left to right) by `rep`; `fuel` bounds the number of
scanning steps and is instantiated with the input length. -/
def replaceFuel (pat rep : List Char) : Nat → List Char → List Char
  | _, [] => []
  | 0, l => l
  | fuel + 1, c :: rest =>
    if pat.isPrefixOf (c :: rest) && !pat.isEmpty then
      rep ++ replaceFuel pat rep fuel ((c :: rest).drop pat.length)
    else c :: replaceFuel pat rep fuel rest

/-- Python `s.replace(pat, rep)` for a non-empty pattern. -/
def pyReplace (s pat rep : String) : String :=
  String.mk (replaceFuel pat.data rep.data s.data.length s.data)

/-- Python `str.title()`: each character that follows a non-alphabetic
character (or starts the string) is uppercased, every other alphabetic
character is lowercased. -/
def pyTitle (s : String) : String :=
  String.mk
    (((s.data.foldl
        (fun (acc : List Char × Bool) c =>
          ((if acc.2 then c.toLower else c.toUpper) :: acc.1, c.isAlpha))
        ([], false)).1).reverse)

/-- Lines 319-325 of `gym.py`: filter the exercises down to those whose
`difficulty` equals the user's experience (every exercise passes when the
experience is `"advanced"`); if nothing passes, use the unfiltered list. -/
def suitableExercises (experience : String) (exercises : List ExRecord) :
    List ExRecord :=
  let suitable := exercises.filter
    (fun ex => ex.difficulty == experience || experience == "advanced")
  if suitable.isEmpty then exercises else suitable

/-- Lines 346-368 of `gym.py`: build the entry for one day of the weekly
schedule (the loop body; `day` ranges over `1..days_per_week`). -/
def fallbackDay (experience : String) (suitable : List ExRecord)
    (day : Nat) : String × DaySchedule :=
  let selected := suitable.take 4
  let t : Nat × String × String :=
    if experience == "beginner" then (2, "8-12", "90 seconds")
    else if experience == "intermediate" then (3, "10-15", "60 seconds")
    else (3, "12-20", "45 seconds")
  (s!"day_{day}",
   { focus := if day ≤ 3 then "Full Body" else "Active Recovery",
     exercises := selected.map (fun ex =>
       { name := ex.name, sets := t.1, reps := t.2.1, rest := t.2.2,
         notes := "Focus on proper form" }) })

/-- The function `WorkoutAI._generate_fallback_plan` (lines 312-370 of `gym.py`). -/
def fallbackPlan (user_profile : UserProfile) (exercises : List ExRecord) :
    Plan :=
  let days_per_week := user_profile.days_per_week
  let experience := user_profile.experience
  let goal := user_profile.goal
  let suitable := suitableExercises experience exercises
  let goalWords := pyReplace goal "_" " "
  let expTitle := pyTitle experience
  let goalTitle := pyTitle goalWords
  { plan_name := s!"Custom {expTitle} {goalTitle} Plan",
    overview :=
      s!"A {days_per_week}-day per week workout plan focused on {goalWords}",
    weekly_schedule :=
      (List.range days_per_week).map
        (fun i => fallbackDay experience suitable (i + 1)),
    progression_tips :=
      ["Increase weight/reps by 5-10% when you can complete all sets easily",
       "Focus on proper form before increasing intensity",
       "Rest at least one day between intense workouts"],
    success_tips :=
      ["Stay consistent with your schedule",
       "Track your progress",
       "Listen to your body and rest when needed",
       "Stay hydrated and eat well"] }

/-! ## The local exercise catalog (`get_fallback_exercises`, lines 116-197) -/

def pushUps : ExRecord :=
  { name := "Push-ups", type := "strength", muscle := "chest",
    equipment := "body_only", difficulty := "beginner",
    instructions := "Start in plank position. Lower body until chest nearly touches floor. Push back up to start position." }

def squats : ExRecord :=
  { name := "Squats", type := "strength", muscle := "quadriceps",
    equipment := "body_only", difficulty := "beginner",
    instructions := "Stand with feet shoulder-width apart. Lower body by bending knees and hips. Return to starting position." }

def plank : ExRecord :=
  { name := "Plank", type := "strength", muscle := "abdominals",
    equipment := "body_only", difficulty := "beginner",
    instructions := "Hold a push-up position with forearms on ground. Keep body straight from head to heels." }

def lunges : ExRecord :=
  { name := "Lunges", type := "strength", muscle := "quadriceps",
    equipment := "body_only", difficulty := "intermediate",
    instructions := "Step forward with one leg, lowering hips until both knees are bent at 90 degrees. Return to start." }

def burpees : ExRecord :=
  { name := "Burpees", type := "cardio", muscle := "full_body",
    equipment := "body_only", difficulty := "intermediate",
    instructions := "From standing, drop to squat, jump back to plank, do push-up, jump forward to squat, jump up." }

def mountainClimbers : ExRecord :=
  { name := "Mountain Climbers", type := "cardio", muscle := "abdominals",
    equipment := "body_only", difficulty := "intermediate",
    instructions := "Start in plank position. Alternate bringing knees to chest in running motion." }

def deadlifts : ExRecord :=
  { name := "Deadlifts", type := "strength", muscle := "hamstrings",
    equipment := "barbell", difficulty := "intermediate",
    instructions := "Stand with barbell at feet. Bend at hips and knees to lower bar. Stand up by extending hips and knees." }

def pullUps : ExRecord :=
  { name := "Pull-ups", type := "strength", muscle := "lats",
    equipment := "pull_up_bar", difficulty := "intermediate",
    instructions := "Hang from pull-up bar with palms facing away. Pull body up until chin clears bar." }

def bicepCurls : ExRecord :=
  { name := "Bicep Curls", type := "strength", muscle := "biceps",
    equipment := "dumbbell", difficulty := "beginner",
    instructions := "Hold dumbbells at sides. Curl weights up by flexing biceps. Lower slowly to start." }

def tricepDips : ExRecord :=
  { name := "Tricep Dips", type := "strength", muscle := "triceps",
    equipment := "body_only", difficulty := "beginner",
    instructions := "Sit on chair edge, hands gripping seat. Lower body by bending arms, then push back up." }

/-- The fixed in-memory catalog of `get_fallback_exercises`. -/
def fallbackCatalog : List ExRecord :=
  [pushUps, squats, plank, lunges, burpees, mountainClimbers, deadlifts,
   pullUps, bicepCurls, tricepDips]

/-- Python `needle in hay` on the underlying character lists. -/
def subListOf (n : List Char) : List Char → Bool
  | [] => n.isEmpty
  | c :: rest => n.isPrefixOf (c :: rest) || subListOf n rest

/-- Python substring test `needle in hay` for strings. -/
def strContains (hay needle : String) : Bool :=
  subListOf needle.data hay.data

/-- The function `ExerciseAPI.get_fallback_exercises` (lines 114-202 of `gym.py`):
the fixed catalog, filtered by a case-insensitive substring match of the
muscle-group argument against each record's `muscle` field when a
(truthy, i.e. non-empty) group is given. -/
def getFallbackExercises (muscle_group : Option String) : List ExRecord :=
  match muscle_group with
  | none => fallbackCatalog
  | some g =>
    if g == "" then fallbackCatalog
    else fallbackCatalog.filter
      (fun ex => strContains (pyLower ex.muscle) (pyLower g))

/-- Outcome of the HTTP request made by `fetch_exercises_ninja_api`:
either a response with a status code and decoded JSON body, or a raised
exception. -/
inductive FetchOutcome where
  | response (status : Nat) (body : List ExRecord)
  | exception
deriving DecidableEq

/-- The function `ExerciseAPI.fetch_exercises_ninja_api` (lines 91-111 of `gym.py`),
with the network interaction abstracted into a `FetchOutcome`: a 200
response returns its body, any other status or any exception returns
`get_fallback_exercises(muscle_group)`. -/
def fetchExercisesNinja (outcome : FetchOutcome)
    (muscle_group : Option String) : List ExRecord :=
  match outcome with
  | .response status body =>
      if status == 200 then body else getFallbackExercises muscle_group
  | .exception => getFallbackExercises muscle_group

/-! ## The deduplication loop (`main`, lines 455-460) -/

/-- The dedup loop of `main`: walk the list keeping the first record with
each not-yet-seen `name`; `seen` is the set of names already kept. -/
def dedupLoop (seen : List String) : List ExRecord → List ExRecord
  | [] => []
  | ex :: rest =>
    if ex.name ∈ seen then dedupLoop seen rest
    else ex :: dedupLoop (ex.name :: seen) rest

/-- Lines 455-460 of `gym.py`: `seen_names = set(); unique_exercises = []`
followed by the first-occurrence loop. -/
def dedupByName (l : List ExRecord) : List ExRecord :=
  dedupLoop [] l

/-- The merge of the per-focus-area exercise lists (lines 449-460):
concatenate in argument order, then deduplicate by name. -/
def mergeExercises (ls : List (List ExRecord)) : List ExRecord :=
  dedupByName ls.flatten

/-! ## Dict-level embedding of the fallback generator

`_generate_fallback_plan` receives plain Python dicts. This second
embedding keeps the two keys the function reads (`'difficulty'` in the
filter, `'name'` when building each day) as possibly-missing fields and
makes every key lookup explicit, so that a missing key surfaces as a
`KeyError`, exactly as in Python. -/

/-- An exercise dict as seen by `_generate_fallback_plan`: only the keys
the function reads are modelled, each possibly missing. -/
structure RawRecord where
  name : Option String
  difficulty : Option String
deriving DecidableEq

/-- Python `d[k]`: the value when the key is present, a `KeyError`
otherwise. -/
def getKey (v : Option String) (k : String) : Except String String :=
  match v with
  | some s => Except.ok s
  | none => Except.error ("KeyError: " ++ k)

/-- The list comprehension of lines 319-322: evaluates `ex['difficulty']`
for every record in order, keeping those passing the filter. -/
def suitableRaw (experience : String) :
    List RawRecord → Except String (List RawRecord)
  | [] => Except.ok []
  | ex :: rest => do
    let d ← getKey ex.difficulty "difficulty"
    let tail ← suitableRaw experience rest
    if d == experience || experience == "advanced" then
      Except.ok (ex :: tail)
    else Except.ok tail

/-- One planned-exercise dict of lines 359-365: reads `ex['name']`. -/
def plannedRaw (t : Nat × String × String) (ex : RawRecord) :
    Except String PlannedExercise := do
  let n ← getKey ex.name "name"
  Except.ok { name := n, sets := t.1, reps := t.2.1, rest := t.2.2,
              notes := "Focus on proper form" }

/-- Effectful map over a list, evaluating left to right and stopping at
the first error, as a Python comprehension does. -/
def mapExcept (f : α → Except String β) :
    List α → Except String (List β)
  | [] => Except.ok []
  | a :: rest => do
    let b ← f a
    let tail ← mapExcept f rest
    Except.ok (b :: tail)

/-- The loop body of lines 346-368 over raw records. -/
def fallbackDayRaw (experience : String) (suitable : List RawRecord)
    (day : Nat) : Except String (String × DaySchedule) := do
  let selected := suitable.take 4
  let t : Nat × String × String :=
    if experience == "beginner" then (2, "8-12", "90 seconds")
    else if experience == "intermediate" then (3, "10-15", "60 seconds")
    else (3, "12-20", "45 seconds")
  let planned ← mapExcept (plannedRaw t) selected
  Except.ok
    (s!"day_{day}",
     { focus := if day ≤ 3 then "Full Body" else "Active Recovery",
       exercises := planned })

/-- The function `_generate_fallback_plan` over raw dicts: key lookups explicit, a
`KeyError` propagates out as `Except.error`. -/
def generateFallbackRaw (user_profile : UserProfile)
    (exercises : List RawRecord) : Except String Plan := do
  let days_per_week := user_profile.days_per_week
  let experience := user_profile.experience
  let goal := user_profile.goal
  let filtered ← suitableRaw experience exercises
  let suitable := if filtered.isEmpty then exercises else filtered
  let goalWords := pyReplace goal "_" " "
  let expTitle := pyTitle experience
  let goalTitle := pyTitle goalWords
  let sched ← mapExcept
    (fun i => fallbackDayRaw experience suitable (i + 1))
    (List.range days_per_week)
  Except.ok
    { plan_name := s!"Custom {expTitle} {goalTitle} Plan",
      overview :=
        s!"A {days_per_week}-day per week workout plan focused on {goalWords}",
      weekly_schedule := sched,
      progression_tips :=
        ["Increase weight/reps by 5-10% when you can complete all sets easily",
         "Focus on proper form before increasing intensity",
         "Rest at least one day between intense workouts"],
      success_tips :=
        ["Stay consistent with your schedule",
         "Track your progress",
         "Listen to your body and rest when needed",
         "Stay hydrated and eat well"] }

/-- The plan record `generateFallbackRaw` wraps around a finished
schedule (same fields as lines 328-343 of `gym.py`). -/
def planShell (p : UserProfile) (sched : List (String × DaySchedule)) :
    Plan :=
  let days_per_week := p.days_per_week
  let goalWords := pyReplace p.goal "_" " "
  let expTitle := pyTitle p.experience
  let goalTitle := pyTitle goalWords
  { plan_name := s!"Custom {expTitle} {goalTitle} Plan",
    overview :=
      s!"A {days_per_week}-day per week workout plan focused on {goalWords}",
    weekly_schedule := sched,
    progression_tips :=
      ["Increase weight/reps by 5-10% when you can complete all sets easily",
       "Focus on proper form before increasing intensity",
       "Rest at least one day between intense workouts"],
    success_tips :=
      ["Stay consistent with your schedule",
       "Track your progress",
       "Listen to your body and rest when needed",
       "Stay hydrated and eat well"] }

/-! ## The AI plan requester (`generate_workout_plan`, lines 215-310) -/

/-- A JSON value, as produced by `json.loads`. -/
inductive Json where
  | null
  | bool (b : Bool)
  | num (n : Int)
  | str (s : String)
  | arr (xs : List Json)
  | obj (fields : List (String × Json))

/-- The `'\x7b'` character. -/
def lbrace : Char := Char.ofNat 123

/-- The `'\x7d'` character. -/
def rbrace : Char := Char.ofNat 125

/-- Python `s.find(c)`: index of the first occurrence, `-1` if absent. -/
def pyFind (s : String) (c : Char) : Int :=
  match s.data.findIdx? (fun a => a == c) with
  | some i => (i : Int)
  | none => -1

/-- Python `s.rfind(c)`: index of the last occurrence, `-1` if absent. -/
def pyRfind (s : String) (c : Char) : Int :=
  match s.data.reverse.findIdx? (fun a => a == c) with
  | some i => ((s.data.length - 1 - i : Nat) : Int)
  | none => -1

/-- Python slice `s[a:b]` for non-negative bounds. -/
def pySlice (s : String) (a b : Nat) : String :=
  String.mk ((s.data.take b).drop a)

/-- Lines 284-290 of `gym.py`: strip the response text, then remove
code-fence markers when the text starts with one. -/
def cleanPlanText (raw : String) : String :=
  let plan_text := pyStrip raw
  if pyStartsWith plan_text "```json" then
    pyStrip (pyReplace (pyReplace plan_text "```json" "") "```" "")
  else if pyStartsWith plan_text "```" then
    pyStrip (pyReplace plan_text "```" "")
  else plan_text

/-- Lines 292-306 of `gym.py`, with `json.loads` abstracted as `loads`
(`none` models a raised `JSONDecodeError`): compute the first `'\x7b'`
index and `rfind('\x7d') + 1`, and when both differ from `-1` parse the
slice between them (a failure there reaches the outer handler of line
308); otherwise try the whole cleaned text, failure giving the inner
handler of line 305. `none` means every road ended in a handler that
returns the fallback plan. -/
def extractPlan (loads : String → Option Json) (raw : String) :
    Option Json :=
  let plan_text := cleanPlanText raw
  let start_idx := pyFind plan_text lbrace
  let end_idx := pyRfind plan_text rbrace + 1
  if start_idx != -1 && end_idx != -1 then
    loads (pySlice plan_text start_idx.toNat end_idx.toNat)
  else
    loads plan_text

/-- Outcome of the external generative-service call: the response text,
or a raised exception. -/
inductive SvcResult where
  | raised
  | ok (text : String)

/-- The function `WorkoutAI.generate_workout_plan` (lines 215-310), with the service
call abstracted into a `SvcResult` and `json.loads` into `loads`: a
successfully parsed JSON value is returned as is (`Sum.inl`), every
failure road returns `_generate_fallback_plan` on the same arguments
(`Sum.inr`). -/
def generateWorkoutPlanModel (loads : String → Option Json)
    (user_profile : UserProfile) (exercises : List ExRecord)
    (svc : SvcResult) : Json ⊕ Plan :=
  match svc with
  | .raised => Sum.inr (fallbackPlan user_profile exercises)
  | .ok text =>
    match extractPlan loads text with
    | some plan => Sum.inl plan
    | none => Sum.inr (fallbackPlan user_profile exercises)

/-! ## Specification-side definitions

These restate parts of the specification in its own words, to be
compared with the embedded code. -/

/-- The set/rep/rest lookup table of spec section 4.3, keyed by
experience: beginner, intermediate, then the advanced/default row. -/
def specTriple (experience : String) : Nat × String × String :=
  if experience == "beginner" then (2, "8-12", "90 seconds")
  else if experience == "intermediate" then (3, "10-15", "60 seconds")
  else (3, "12-20", "45 seconds")

/-- Spec section 4.3 step 1, as worded there: filter to matching
difficulty unless the experience is advanced (then everything is
suitable); an empty filter result falls back to the unfiltered list. -/
def suitableSpec (experience : String) (exercises : List ExRecord) :
    List ExRecord :=
  let filtered :=
    if experience == "advanced" then exercises
    else exercises.filter (fun ex => ex.difficulty == experience)
  if filtered.isEmpty then exercises else filtered

/-- Spec section 4.2, as worded there: keep the first occurrence of each
distinct name, dropping every later record with a name already kept. -/
def dedupSpec : List ExRecord → List ExRecord
  | [] => []
  | x :: xs =>
    x :: dedupSpec (xs.filter (fun y => y.name != x.name))
termination_by l => l.length
decreasing_by
  simp only [List.length_cons]
  exact Nat.lt_succ_of_le (List.length_filter_le _ _)

/-- The claim's parsing flow, as stated: parse the substring between the
first `'\x7b'` and the last `'\x7d'` (extraction failing when either is
absent); if that extraction or parse fails, try the whole cleaned text. -/
def extractPlanSpec (loads : String → Option Json) (raw : String) :
    Option Json :=
  let plan_text := cleanPlanText raw
  let first := pyFind plan_text lbrace
  let last := pyRfind plan_text rbrace
  let attempt1 : Option Json :=
    if first != -1 && last != -1 then
      loads (pySlice plan_text first.toNat (last.toNat + 1))
    else none
  match attempt1 with
  | some j => some j
  | none => loads plan_text

/-- The parsing flow as the code actually behaves: the second, whole-text
attempt happens only when the cleaned text has no `'\x7b'` at all; when a
`'\x7b'` is present, the single attempt parses the slice up to
`rfind('\x7d') + 1` (the empty string when no `'\x7d'` exists), and its
failure goes straight to the fallback. -/
def extractPlanSpecAmended (loads : String → Option Json) (raw : String) :
    Option Json :=
  let plan_text := cleanPlanText raw
  let first := pyFind plan_text lbrace
  if first == -1 then loads plan_text
  else loads (pySlice plan_text first.toNat (pyRfind plan_text rbrace + 1).toNat)

/-- Modelled from the spec: `json.loads` (Python standard library, not
part of this repository's sources), restricted to JSON string literals
without escape sequences. On every input it is applied to below it
agrees with `json.loads`: the empty string is not valid JSON, and a
double-quoted escape-free string parses to that string's contents. -/
def loadsLit (t : String) : Option Json :=
  let cs := t.data
  let quote := Char.ofNat 34
  if 2 ≤ cs.length && cs.head? == some quote && cs.getLast? == some quote
      && ((cs.drop 1).take (cs.length - 2)).all (fun c => c != quote) then
    some (Json.str (String.mk ((cs.drop 1).take (cs.length - 2))))
  else none

/-- The profile used in the concrete scenarios below. -/
def beginnerProfile3 : UserProfile :=
  { goal := "general_fitness", experience := "beginner",
    days_per_week := 3, duration := 45, equipment := ["body_only"],
    focus_areas := ["full_body"] }

/-- The exercise set of spec section 8 property 5: the first five catalog
records, with the difficulties the local catalog gives them. -/
def exsC6 : List ExRecord := [pushUps, squats, plank, lunges, burpees]

/-- The planned exercise each day of `fallbackPlan beginnerProfile3 [pushUps]`
contains. -/
def peW : PlannedExercise :=
  { name := "Push-ups", sets := 2, reps := "8-12", rest := "90 seconds",
    notes := "Focus on proper form" }

/-- The day entry of `fallbackPlan beginnerProfile3 [pushUps]`. -/
def kdW : String × DaySchedule :=
  ("day_1", { focus := "Full Body", exercises := [peW] })

/-- The day schedule shared by all three days of
`fallbackPlan beginnerProfile3 exsC6`. -/
def dayW : DaySchedule :=
  { focus := "Full Body",
    exercises :=
      [{ name := "Push-ups", sets := 2, reps := "8-12", rest := "90 seconds",
         notes := "Focus on proper form" },
       { name := "Squats", sets := 2, reps := "8-12", rest := "90 seconds",
         notes := "Focus on proper form" },
       { name := "Plank", sets := 2, reps := "8-12", rest := "90 seconds",
         notes := "Focus on proper form" }] }

/-- A service response consisting of a JSON string literal containing a
single opening brace: `'\x7b'` is present, `'\x7d'` is not, and the whole
text is valid JSON. -/
def tc8 : String := "\x22\x7b\x22"

/-- A duplicate of `pushUps` differing only in a non-key field. -/
def pushUpsDup : ExRecord :=
  { pushUps with instructions := "Duplicate record sharing the name." }

/-- A profile at the `days_per_week` boundary value 7. -/
def advancedProfile7 : UserProfile :=
  { goal := "strength", experience := "advanced", days_per_week := 7,
    duration := 60, equipment := ["barbell"], focus_areas := ["back"] }

/-- A raw record carrying both keys. -/
def rawFull : RawRecord :=
  { name := some "Push-ups", difficulty := some "beginner" }

/-- A raw record missing its `'difficulty'` key. -/
def rawNoDiff : RawRecord :=
  { name := some "Mystery", difficulty := none }

/-! ## Theorems -/

/-- C1: for every profile with `days_per_week = N`, `N ∈ [2,7]`, the
fallback plan's `weekly_schedule` has exactly N entries, keyed
`day_1`..`day_N` in schedule order. -/
theorem C1_weekly_schedule_keys (p : UserProfile) (exs : List ExRecord)
    (h2 : 2 ≤ p.days_per_week) (h7 : p.days_per_week ≤ 7) :
    (fallbackPlan p exs).weekly_schedule.length = p.days_per_week ∧
    (fallbackPlan p exs).weekly_schedule.map Prod.fst
      = (List.range p.days_per_week).map (fun i => s!"day_{i + 1}") := by
  constructor
  · simp [fallbackPlan]
  · simp [fallbackPlan, fallbackDay]

/-- Witness for C1 at a concrete profile with three training days. -/
theorem C1_witness :
    (2 ≤ beginnerProfile3.days_per_week ∧ beginnerProfile3.days_per_week ≤ 7) ∧
    ((fallbackPlan beginnerProfile3 []).weekly_schedule.length
        = beginnerProfile3.days_per_week ∧
      (fallbackPlan beginnerProfile3 []).weekly_schedule.map Prod.fst
        = (List.range beginnerProfile3.days_per_week).map
            (fun i => s!"day_{i + 1}")) :=
  ⟨⟨by decide, by decide⟩,
   C1_weekly_schedule_keys beginnerProfile3 [] (by decide) (by decide)⟩

/-- C2: every planned exercise of the fallback plan carries exactly the
(sets, reps, rest) triple that the fixed experience table assigns:
beginner (2, "8-12", "90 seconds"); intermediate (3, "10-15",
"60 seconds"); advanced or anything else (3, "12-20", "45 seconds"). -/
theorem C2_triple_from_table (p : UserProfile) (exs : List ExRecord)
    (hne : exs ≠ []) :
    ∀ kd ∈ (fallbackPlan p exs).weekly_schedule,
      ∀ pe ∈ kd.2.exercises,
        (pe.sets, pe.reps, pe.rest) = specTriple p.experience := by
  intro kd hkd pe hpe
  simp only [fallbackPlan, List.mem_map, List.mem_range] at hkd
  obtain ⟨i, _, rfl⟩ := hkd
  simp only [fallbackDay, List.mem_map] at hpe
  obtain ⟨ex, _, rfl⟩ := hpe
  rfl

/-- Witness for C2: a beginner profile with one exercise; the plan's
planned exercise carries the beginner triple. -/
theorem C2_witness :
    ([pushUps] : List ExRecord) ≠ [] ∧
    (peW.sets, peW.reps, peW.rest) = specTriple beginnerProfile3.experience :=
  ⟨by decide,
   C2_triple_from_table beginnerProfile3 [pushUps] (by decide) kdW
     (by decide) peW (by decide)⟩

/-- C3: the fallback generator's suitable set is exactly the
spec-described one: the input filtered to matching difficulty, everything
when the experience is advanced, and the unfiltered input when the filter
comes back empty. -/
theorem C3_suitable_matches_spec (experience : String)
    (exs : List ExRecord) :
    suitableExercises experience exs = suitableSpec experience exs := by
  by_cases h : experience == "advanced"
  · simp [suitableExercises, suitableSpec, h, List.filter_true]
  · simp [suitableExercises, suitableSpec, h]

/-- The dedup loop with `seen` names already kept equals the spec-side
dedup of the input with the seen names filtered away. -/
theorem dedupLoop_eq_dedupSpec (l : List ExRecord) :
    ∀ seen, dedupLoop seen l
      = dedupSpec (l.filter (fun x => decide (x.name ∉ seen))) := by
  induction l with
  | nil => intro seen; simp [dedupLoop, dedupSpec]
  | cons x xs ih =>
    intro seen
    by_cases hx : x.name ∈ seen
    · simp [dedupLoop, hx, ih]
    · rw [List.filter_cons_of_pos (by simpa using hx)]
      simp only [dedupLoop, if_neg hx, ih, dedupSpec]
      congr 1
      rw [List.filter_filter]
      apply congrArg
      apply List.filter_congr
      intro y hy
      by_cases h1 : y.name = x.name <;> by_cases h2 : y.name ∈ seen <;>
        simp [h1, h2, bne]

/-- The dedup loop started with nothing seen is exactly the spec-side
first-occurrence dedup. -/
theorem dedupByName_eq_dedupSpec (l : List ExRecord) :
    dedupByName l = dedupSpec l := by
  have h := dedupLoop_eq_dedupSpec l []
  simpa [dedupByName] using h

/-- Every record of the deduplicated list comes from the input. -/
theorem mem_of_mem_dedupSpec (l : List ExRecord) (y : ExRecord)
    (hy : y ∈ dedupSpec l) : y ∈ l := by
  induction l using dedupSpec.induct with
  | case1 => simp [dedupSpec] at hy
  | case2 x xs ih =>
    rw [dedupSpec] at hy
    rcases List.mem_cons.mp hy with h | h
    · exact h ▸ List.mem_cons_self x xs
    · exact List.mem_cons_of_mem x (List.mem_of_mem_filter (ih h))

/-- The deduplicated list has pairwise distinct names. -/
theorem dedupSpec_pairwise (l : List ExRecord) :
    (dedupSpec l).Pairwise (fun a b => a.name ≠ b.name) := by
  induction l using dedupSpec.induct with
  | case1 => rw [dedupSpec]; exact List.Pairwise.nil
  | case2 x xs ih =>
    rw [dedupSpec]
    refine List.Pairwise.cons ?_ ih
    intro y hy
    have hmem := List.of_mem_filter (mem_of_mem_dedupSpec _ y hy)
    have hne : y.name ≠ x.name := by simpa using hmem
    exact Ne.symm hne

/-- On a list with pairwise distinct names, dedup is the identity. -/
theorem dedupSpec_eq_self (l : List ExRecord)
    (h : l.Pairwise (fun a b => a.name ≠ b.name)) : dedupSpec l = l := by
  induction l using dedupSpec.induct with
  | case1 => rw [dedupSpec]
  | case2 x xs ih =>
    rw [dedupSpec]
    rcases List.pairwise_cons.mp h with ⟨hhead, htail⟩
    have hfilter : xs.filter (fun y => y.name != x.name) = xs := by
      apply List.filter_eq_self.mpr
      intro y hy
      simpa [bne] using (hhead y hy).symm
    rw [hfilter] at ih ⊢
    exact congrArg (x :: ·) (ih htail)

/-- C4: the deduplicator applied to the concatenation of the input lists
keeps exactly the first occurrence of each distinct name in first-seen
order (it equals the spec-side first-occurrence dedup), it is idempotent,
and merging a name-keyed `[A, B, A]` yields `[A, B]`. -/
theorem C4_dedup_properties :
    (∀ ls : List (List ExRecord), mergeExercises ls = dedupSpec ls.flatten) ∧
    (∀ l : List ExRecord, dedupByName (dedupByName l) = dedupByName l) ∧
    dedupByName [pushUps, squats, pushUpsDup] = [pushUps, squats] := by
  refine ⟨?_, ?_, by decide⟩
  · intro ls
    exact dedupByName_eq_dedupSpec ls.flatten
  · intro l
    rw [dedupByName_eq_dedupSpec, dedupByName_eq_dedupSpec]
    exact dedupSpec_eq_self _ (dedupSpec_pairwise l)

/-- When every record has a `'difficulty'` key, the suitability filter
returns normally, with a sublist of its input. -/
theorem suitableRaw_ok (e : String) (l : List RawRecord)
    (h : ∀ r ∈ l, r.difficulty.isSome) :
    ∃ s, suitableRaw e l = Except.ok s ∧ ∀ r ∈ s, r ∈ l := by
  induction l with
  | nil => exact ⟨[], rfl, by simp⟩
  | cons x xs ih =>
    obtain ⟨d, hd⟩ := Option.isSome_iff_exists.mp (h x (List.mem_cons_self x xs))
    obtain ⟨s, hs, hsub⟩ := ih (fun r hr => h r (List.mem_cons_of_mem x hr))
    by_cases hc : d == e || e == "advanced"
    · refine ⟨x :: s, ?_, ?_⟩
      · simp [suitableRaw, getKey, hd, hs, hc, Bind.bind, Except.bind]
      · intro r hr
        rcases List.mem_cons.mp hr with h1 | h1
        · exact h1 ▸ List.mem_cons_self x xs
        · exact List.mem_cons_of_mem x (hsub r h1)
    · refine ⟨s, ?_, fun r hr => List.mem_cons_of_mem x (hsub r hr)⟩
      simp [suitableRaw, getKey, hd, hs, hc, Bind.bind, Except.bind]

/-- A record without a `'difficulty'` key makes the suitability filter
raise a `KeyError`. -/
theorem suitableRaw_error (e : String) (l : List RawRecord)
    (h : ∃ r ∈ l, r.difficulty = none) :
    ∃ msg, suitableRaw e l = Except.error msg := by
  induction l with
  | nil => simp at h
  | cons x xs ih =>
    by_cases hx : x.difficulty = none
    · exact ⟨"KeyError: difficulty",
        by simp [suitableRaw, getKey, hx, Bind.bind, Except.bind]⟩
    · obtain ⟨d, hd⟩ := Option.ne_none_iff_exists'.mp hx
      obtain ⟨r, hr, hrd⟩ := h
      rcases List.mem_cons.mp hr with h1 | h1
      · exact absurd (h1 ▸ hrd) hx
      · obtain ⟨msg, hmsg⟩ := ih ⟨r, h1, hrd⟩
        refine ⟨msg, ?_⟩
        simp [suitableRaw, getKey, hd, hmsg, Bind.bind, Except.bind]

/-- When `f` succeeds on every element, `mapExcept` returns normally, its
output as long as its input. -/
theorem mapExcept_ok {α β : Type} (f : α → Except String β) (l : List α)
    (h : ∀ a ∈ l, ∃ b, f a = Except.ok b) :
    ∃ bs, mapExcept f l = Except.ok bs ∧ bs.length = l.length := by
  induction l with
  | nil => exact ⟨[], rfl, rfl⟩
  | cons x xs ih =>
    obtain ⟨b, hb⟩ := h x (List.mem_cons_self x xs)
    obtain ⟨bs, hbs, hlen⟩ := ih (fun a ha => h a (List.mem_cons_of_mem x ha))
    refine ⟨b :: bs, ?_, by simp [hlen]⟩
    simp [mapExcept, hb, hbs, Bind.bind, Except.bind]

/-- Evaluation of `plannedRaw` on a record whose `'name'` key is present. -/
theorem plannedRaw_ok (t : Nat × String × String) (r : RawRecord)
    (n : String) (hn : r.name = some n) :
    plannedRaw t r = Except.ok
      { name := n, sets := t.1, reps := t.2.1, rest := t.2.2,
        notes := "Focus on proper form" } := by
  simp only [plannedRaw, hn, getKey]
  rfl

/-- A day of the raw generator returns normally when every suitable
record has a `'name'` key, and it has one planned exercise per selected
record. -/
theorem fallbackDayRaw_ok (e : String) (suitable : List RawRecord)
    (day : Nat) (h : ∀ r ∈ suitable, r.name.isSome) :
    ∃ pes, fallbackDayRaw e suitable day = Except.ok
        (s!"day_{day}",
         { focus := if day ≤ 3 then "Full Body" else "Active Recovery",
           exercises := pes }) ∧
      pes.length = (suitable.take 4).length := by
  have hsel : ∀ r ∈ suitable.take 4, ∃ pe,
      plannedRaw (if e == "beginner" then (2, "8-12", "90 seconds")
        else if e == "intermediate" then (3, "10-15", "60 seconds")
        else (3, "12-20", "45 seconds")) r = Except.ok pe := by
    intro r hr
    obtain ⟨n, hn⟩ := Option.isSome_iff_exists.mp
      (h r (List.mem_of_mem_take hr))
    exact ⟨_, plannedRaw_ok _ r n hn⟩
  obtain ⟨pes, hpes, hlen⟩ := mapExcept_ok _ _ hsel
  refine ⟨pes, ?_, hlen⟩
  simp only [fallbackDayRaw, hpes]
  rfl

/-- Lemma `mapExcept_ok` strengthened with a property of each output. -/
theorem mapExcept_ok_prop {α β : Type} (f : α → Except String β)
    (P : β → Prop) (l : List α)
    (h : ∀ a ∈ l, ∃ b, f a = Except.ok b ∧ P b) :
    ∃ bs, mapExcept f l = Except.ok bs ∧ bs.length = l.length ∧
      ∀ b ∈ bs, P b := by
  induction l with
  | nil => exact ⟨[], rfl, rfl, by simp⟩
  | cons x xs ih =>
    obtain ⟨b, hb, hPb⟩ := h x (List.mem_cons_self x xs)
    obtain ⟨bs, hbs, hlen, hP⟩ := ih (fun a ha => h a (List.mem_cons_of_mem x ha))
    refine ⟨b :: bs, ?_, by simp [hlen], ?_⟩
    · simp [mapExcept, hb, hbs, Bind.bind, Except.bind]
    · intro c hc
      rcases List.mem_cons.mp hc with h1 | h1
      · exact h1 ▸ hPb
      · exact hP c h1

/-- Shared helper: with both keys present on every record the raw
generator returns normally, with a fully-formed plan. -/
theorem fallbackRaw_ok_keys (p : UserProfile) (exs : List RawRecord)
    (hk : ∀ r ∈ exs, r.name.isSome ∧ r.difficulty.isSome) :
    ∃ plan, generateFallbackRaw p exs = Except.ok plan ∧
      plan.weekly_schedule.length = p.days_per_week ∧
      (exs = [] → ∀ kd ∈ plan.weekly_schedule, kd.2.exercises = []) := by
  obtain ⟨s, hs, hsub⟩ :=
    suitableRaw_ok p.experience exs (fun r hr => (hk r hr).2)
  have hnames : ∀ r ∈ (if s.isEmpty then exs else s), r.name.isSome := by
    intro r hr
    by_cases he : s.isEmpty
    · exact (hk r (by simpa [he] using hr)).1
    · exact (hk r (hsub r (by simpa [he] using hr))).1
  have hdays : ∀ i ∈ List.range p.days_per_week, ∃ kd,
      fallbackDayRaw p.experience (if s.isEmpty then exs else s) (i + 1)
        = Except.ok kd ∧
      ((if s.isEmpty then exs else s) = [] → kd.2.exercises = []) := by
    intro i _
    obtain ⟨pes, hkd, hlen⟩ :=
      fallbackDayRaw_ok p.experience (if s.isEmpty then exs else s)
        (i + 1) hnames
    refine ⟨_, hkd, ?_⟩
    intro hnil
    rw [hnil] at hlen
    simpa using List.length_eq_zero.mp (by simpa using hlen)
  obtain ⟨sched, hsched, hslen, hsprop⟩ :=
    mapExcept_ok_prop _ _ _ hdays
  have hgen : generateFallbackRaw p exs = Except.ok (planShell p sched) := by
    simp only [generateFallbackRaw, Bind.bind, Except.bind, hs, hsched]
    rfl
  refine ⟨planShell p sched, hgen, ?_, ?_⟩
  · simpa [planShell] using hslen
  · intro hnil kd hkd
    simp only [planShell] at hkd
    apply hsprop kd hkd
    subst hnil
    have hsnil : s = [] := by
      have h0 := hs
      simp [suitableRaw] at h0
      exact h0
    simp [hsnil]

/-- C5: on any profile and any list of exercise records carrying their
`'name'` and `'difficulty'` keys — in particular the empty list, at any
`days_per_week` including the boundary values 2 and 7 — the fallback
generator returns normally; on the empty list every day of the still
fully-formed plan has an empty exercises list. -/
theorem C5_fallback_total (p : UserProfile) (exs : List RawRecord)
    (hk : ∀ r ∈ exs, r.name.isSome ∧ r.difficulty.isSome) :
    ∃ plan, generateFallbackRaw p exs = Except.ok plan ∧
      plan.weekly_schedule.length = p.days_per_week ∧
      (exs = [] → ∀ kd ∈ plan.weekly_schedule, kd.2.exercises = []) :=
  fallbackRaw_ok_keys p exs hk

/-- C10: the generator's totality carries an implicit key precondition:
records with both `'name'` and `'difficulty'` keys make it return
normally, while a record missing `'difficulty'` makes the non-advanced
path raise a `KeyError`. -/
theorem C10_key_precondition :
    (∀ (p : UserProfile) (exs : List RawRecord),
        (∀ r ∈ exs, r.difficulty.isSome ∧ r.name.isSome) →
        ∃ plan, generateFallbackRaw p exs = Except.ok plan) ∧
    (∀ (p : UserProfile) (exs : List RawRecord),
        p.experience ≠ "advanced" →
        (∃ r ∈ exs, r.difficulty = none) →
        ∃ msg, generateFallbackRaw p exs = Except.error msg) := by
  constructor
  · intro p exs hk
    obtain ⟨plan, hplan, -, -⟩ :=
      fallbackRaw_ok_keys p exs (fun r hr => ⟨(hk r hr).2, (hk r hr).1⟩)
    exact ⟨plan, hplan⟩
  · intro p exs hexp hmiss
    obtain ⟨msg, hmsg⟩ := suitableRaw_error p.experience exs hmiss
    exact ⟨msg, by simp [generateFallbackRaw, Bind.bind, Except.bind, hmsg]⟩

/-- Witness for C5 at the empty exercise list and the boundary profile
with seven days. -/
theorem C5_witness :
    (∀ r ∈ ([] : List RawRecord), r.name.isSome ∧ r.difficulty.isSome) ∧
    (∃ plan, generateFallbackRaw advancedProfile7 [] = Except.ok plan ∧
      plan.weekly_schedule.length = advancedProfile7.days_per_week ∧
      (([] : List RawRecord) = [] →
        ∀ kd ∈ plan.weekly_schedule, kd.2.exercises = [])) :=
  ⟨by simp, C5_fallback_total advancedProfile7 [] (by simp)⟩

/-- Witness for C10: a record with both keys generates normally, a
record without `'difficulty'` raises on a non-advanced profile. -/
theorem C10_witness :
    ((∀ r ∈ [rawFull], r.difficulty.isSome ∧ r.name.isSome) ∧
      ∃ plan, generateFallbackRaw beginnerProfile3 [rawFull]
        = Except.ok plan) ∧
    (beginnerProfile3.experience ≠ "advanced" ∧
      (∃ r ∈ [rawNoDiff], r.difficulty = none) ∧
      ∃ msg, generateFallbackRaw beginnerProfile3 [rawNoDiff]
        = Except.error msg) :=
  ⟨⟨by decide,
    C10_key_precondition.1 beginnerProfile3 [rawFull] (by decide)⟩,
   ⟨by decide, ⟨rawNoDiff, by decide⟩,
    C10_key_precondition.2 beginnerProfile3 [rawNoDiff] (by decide)
      ⟨rawNoDiff, by decide⟩⟩⟩

/-- C6 counterexample: on the beginner 3-day profile and the first five
catalog exercises, every day holds the three beginner-difficulty
exercises Push-ups, Squats, Plank — not the four exercises
`[Push-ups, Squats, Plank, Lunges]` the claim states (Lunges has
difficulty `"intermediate"` and is filtered out). -/
theorem C6_counterexample :
    ((fallbackPlan beginnerProfile3 exsC6).weekly_schedule.map
        (fun kd => kd.2.exercises.map (fun pe => pe.name)))
      = [["Push-ups", "Squats", "Plank"], ["Push-ups", "Squats", "Plank"],
         ["Push-ups", "Squats", "Plank"]] ∧
    ¬ (∀ kd ∈ (fallbackPlan beginnerProfile3 exsC6).weekly_schedule,
        kd.2.exercises.map (fun pe => pe.name)
          = ["Push-ups", "Squats", "Plank", "Lunges"]) :=
  ⟨by decide, by decide⟩

/-- C6 amended: on the beginner 3-day profile and the first five catalog
exercises the fallback plan has exactly three days keyed `day_1..day_3`,
all with focus "Full Body", each containing exactly the three
beginner-difficulty exercises Push-ups, Squats, Plank in catalog order,
each with sets 2, reps "8-12", rest "90 seconds". -/
theorem C6_beginner_three_day_plan :
    (fallbackPlan beginnerProfile3 exsC6).weekly_schedule
      = [("day_1", dayW), ("day_2", dayW), ("day_3", dayW)] ∧
    dayW.focus = "Full Body" ∧
    dayW.exercises.map (fun pe => pe.name)
      = ["Push-ups", "Squats", "Plank"] ∧
    (∀ pe ∈ dayW.exercises,
      pe.sets = 2 ∧ pe.reps = "8-12" ∧ pe.rest = "90 seconds") :=
  ⟨by decide, by decide, by decide, by decide⟩

/-- C7 counterexample: the fallback plan's `progression_tips` has three
entries, not the four the claim states. -/
theorem C7_counterexample :
    (fallbackPlan beginnerProfile3 []).progression_tips.length = 3 ∧
    (fallbackPlan beginnerProfile3 []).progression_tips.length ≠ 4 :=
  ⟨by decide, by decide⟩

/-- C7 amended: `progression_tips` (3 entries) and `success_tips`
(4 entries) are fixed constant lists, independent of the profile and
exercise inputs. -/
theorem C7_constant_tips (p : UserProfile) (exs : List ExRecord) :
    (fallbackPlan p exs).progression_tips
      = ["Increase weight/reps by 5-10% when you can complete all sets easily",
         "Focus on proper form before increasing intensity",
         "Rest at least one day between intense workouts"] ∧
    (fallbackPlan p exs).success_tips
      = ["Stay consistent with your schedule",
         "Track your progress",
         "Listen to your body and rest when needed",
         "Stay hydrated and eat well"] :=
  ⟨rfl, rfl⟩

/-- Python `rfind` never returns anything below `-1`. -/
theorem pyRfind_ge_neg_one (s : String) (c : Char) : -1 ≤ pyRfind s c := by
  unfold pyRfind
  cases h : s.data.reverse.findIdx? (fun a => a == c) with
  | none => simp
  | some i =>
    have := Int.natCast_nonneg (s.data.length - 1 - i)
    simp
    omega

/-- The code's extraction pipeline coincides with the amended
description: since `rfind('\x7d') + 1` is never `-1`, the slice branch is
taken exactly when a `'\x7b'` exists, and the whole-text attempt happens
only otherwise. -/
theorem extractPlan_eq_amended (loads : String → Option Json)
    (raw : String) :
    extractPlan loads raw = extractPlanSpecAmended loads raw := by
  simp only [extractPlan, extractPlanSpecAmended]
  by_cases hf : pyFind (cleanPlanText raw) lbrace = -1
  · simp [hf]
  · have h1 : (pyFind (cleanPlanText raw) lbrace != -1) = true := by
      simp [hf]
    have h2 : (pyRfind (cleanPlanText raw) rbrace + 1 != -1) = true := by
      have := pyRfind_ge_neg_one (cleanPlanText raw) rbrace
      simp
      omega
    simp [hf, h1, h2]

/-- C8 amended: the requester parses the slice of the cleaned text from
the first `'\x7b'` up to `rfind('\x7d') + 1` (the empty string when no
`'\x7d'` exists); the second, whole-text parse attempt happens only when
the cleaned text contains no `'\x7b'` at all; and whenever the applicable
attempt fails, or the service call raises, the result is exactly
`_generate_fallback_plan` on the same profile and exercise arguments. -/
theorem C8_parse_and_fallback :
    (∀ (loads : String → Option Json) (raw : String),
        extractPlan loads raw = extractPlanSpecAmended loads raw) ∧
    (∀ (loads : String → Option Json) (p : UserProfile)
        (exs : List ExRecord),
        generateWorkoutPlanModel loads p exs .raised
          = Sum.inr (fallbackPlan p exs)) ∧
    (∀ (loads : String → Option Json) (p : UserProfile)
        (exs : List ExRecord) (raw : String),
        extractPlanSpecAmended loads raw = none →
        generateWorkoutPlanModel loads p exs (.ok raw)
          = Sum.inr (fallbackPlan p exs)) ∧
    (∀ (loads : String → Option Json) (p : UserProfile)
        (exs : List ExRecord) (raw : String) (j : Json),
        extractPlanSpecAmended loads raw = some j →
        generateWorkoutPlanModel loads p exs (.ok raw) = Sum.inl j) := by
  refine ⟨extractPlan_eq_amended, fun _ _ _ => rfl, ?_, ?_⟩
  · intro loads p exs raw h
    simp [generateWorkoutPlanModel, extractPlan_eq_amended, h]
  · intro loads p exs raw j h
    simp [generateWorkoutPlanModel, extractPlan_eq_amended, h]

/-- Witness for C8: on the response `'"\x7b"'` the amended flow fails to
parse (the slice from the `'\x7b'` is empty) and the requester returns
the fallback plan. -/
theorem C8_witness :
    extractPlanSpecAmended loadsLit tc8 = none ∧
    generateWorkoutPlanModel loadsLit beginnerProfile3 [] (.ok tc8)
      = Sum.inr (fallbackPlan beginnerProfile3 []) :=
  ⟨rfl, C8_parse_and_fallback.2.2.1 loadsLit beginnerProfile3 [] tc8 rfl⟩

/-- C8 counterexample: on the service response `'"\x7b"'` (a valid JSON
string containing an opening brace and no closing brace) the code takes
the slice branch — `start_idx = 1` and `end_idx = rfind('\x7d') + 1 = 0`,
both `!= -1` — parses the empty slice, fails, and falls back; the claim's
flow would instead reach the second, whole-text attempt and return the
parsed JSON string. -/
theorem C8_counterexample :
    extractPlan loadsLit tc8 = none ∧
    extractPlanSpec loadsLit tc8 = some (Json.str "\x7b") ∧
    generateWorkoutPlanModel loadsLit beginnerProfile3 exsC6 (.ok tc8)
      = Sum.inr (fallbackPlan beginnerProfile3 exsC6) ∧
    (some (Json.str "\x7b") : Option Json) ≠ none :=
  ⟨rfl, rfl, rfl, by simp⟩

/-- C9: the exercise fetch never propagates a failure: any non-200
status and any exception yield `get_fallback_exercises(muscle_group)`,
which is the fixed 10-record local catalog filtered by case-insensitive
substring match of the muscle group against each record's `muscle` field,
or the whole catalog when no muscle group is given. -/
theorem C9_fetch_fallback :
    (∀ (muscle_group : Option String) (status : Nat)
        (body : List ExRecord), status ≠ 200 →
        fetchExercisesNinja (.response status body) muscle_group
          = getFallbackExercises muscle_group) ∧
    (∀ muscle_group : Option String,
        fetchExercisesNinja .exception muscle_group
          = getFallbackExercises muscle_group) ∧
    (∀ g : String, getFallbackExercises (some g)
        = fallbackCatalog.filter
            (fun ex => strContains (pyLower ex.muscle) (pyLower g))) ∧
    getFallbackExercises none = fallbackCatalog ∧
    fallbackCatalog.length = 10 := by
  refine ⟨?_, fun _ => rfl, ?_, rfl, rfl⟩
  · intro mg status body hst
    simp [fetchExercisesNinja, hst]
  · intro g
    by_cases hg : g == ""
    · have hg' : g = "" := eq_of_beq hg
      subst hg'
      decide
    · simp [getFallbackExercises, hg]

/-- Witness for C9 at a concrete non-200 status and muscle group. -/
theorem C9_witness :
    (500 : Nat) ≠ 200 ∧
    fetchExercisesNinja (.response 500 []) (some "chest")
      = getFallbackExercises (some "chest") :=
  ⟨by decide, C9_fetch_fallback.1 (some "chest") 500 [] (by decide)⟩
